import Mathlib

/-!
Verification of the product-catalog client (spec.md) against its source.

Shallow embedding of the JavaScript source files:
  * `src/screens/ProfileScreen.js` — the list screen (`HomeScreen` component):
    `filterProducts`, `filterByCategory`, `sortProducts`, `getProcessedProducts`,
    the query state (`searchQuery`, `sortBy`, `filterCategory`) and the displayed list.
  * `src/hooks/useProducts.js` — `handleSearch`, `handleSort`, `handleFilter`.
  * `src/hooks/useProductDetail.js` — the per-id fetch lifecycle with AbortController.
  * `src/services/api.js` — `searchProducts`, `fetchProductsByCategory`, `fetchProductById`.

Modelling conventions:
  * JavaScript strings are Lean `String`s; operations that the source uses
    (`toLowerCase`, `trim`, `includes`, `localeCompare`) are modelled on the
    underlying character list.  `localeCompare` is modelled as code-point
    lexicographic comparison (the claims only use that it is a lexicographic
    total order on titles).
  * `undefined`/missing object fields are `Option.none`; the JS fallbacks
    `x || ''` and `x || 0` become `Option.getD`.
  * A JS number is modelled as an `Int` (every claim involves only comparator
    signs and order, which fractional prices would not change);
    `a.price - b.price` with a missing operand is `NaN`, which the ECMAScript
    `SortCompare` operation maps to `+0`, so the modelled comparator returns
    `0` in that case.  `localeCompare` is computed by the executable
    lexicographic order `strLtL` on the character lists.
  * Code that can throw a `TypeError` (a property access on `undefined`) is
    embedded in `Except JsErr`.
  * `Array.prototype.sort` (stable since ES2019) is modelled by a stable
    insertion sort driven by the source's comparator; for a consistent
    comparator this is the unique stable sorted permutation the ECMAScript
    specification mandates.
-/

/-- Errors a modelled JavaScript expression can throw. -/
inductive JsErr where
  /-- TypeError: reading a property of `undefined` (e.g. `undefined.toLowerCase()`). -/
  | typeError
  deriving Repr, DecidableEq

/-- One catalog item as deserialized from the API (`Product` in spec §3).
Fields the upstream data may omit are `Option`s. -/
structure Product where
  id : Int
  title : Option String
  description : Option String
  category : Option String
  price : Option Int
  deriving Repr, DecidableEq

/-- Characters removed by JavaScript `String.prototype.trim` (the common subset;
full JS trims all Unicode whitespace, which no claim depends on). -/
def jsWhitespace (c : Char) : Bool :=
  c == ' ' || c == '\t' || c == '\n' || c == '\r'

/-- JavaScript `String.prototype.trim` on the character list. -/
def jsTrimL (l : List Char) : List Char :=
  ((l.dropWhile jsWhitespace).reverse.dropWhile jsWhitespace).reverse

/-- JavaScript `String.prototype.trim`. -/
def jsTrim (s : String) : String := ⟨jsTrimL s.data⟩

/-- JavaScript `String.prototype.toLowerCase` (character-wise lowering). -/
def jsToLower (s : String) : String := ⟨s.data.map Char.toLower⟩

/-- `t` is a prefix of `s` (boolean, by character equality). -/
def startsW : List Char → List Char → Bool
  | _, [] => true
  | [], _ :: _ => false
  | a :: s, b :: t => a == b && startsW s t

/-- `t` occurs contiguously inside `s` (boolean). -/
def containsSub : List Char → List Char → Bool
  | [], t => t.isEmpty
  | a :: s', t => startsW (a :: s') t || containsSub s' t

/-- JavaScript `s.includes(t)`. -/
def jsIncludes (s t : String) : Bool := containsSub s.data t.data

section StableSort

variable {α : Type _}

/-- Stable insertion of `x` into `l`: `x` is placed before the first element it
does not have to follow, hence before every element with an equal key. -/
def insertS (le : α → α → Bool) (x : α) : List α → List α
  | [] => [x]
  | y :: ys => if le x y then x :: y :: ys else y :: insertS le x ys

/-- Stable insertion sort; for a consistent comparator this is the list
`Array.prototype.sort` must produce (stable since ES2019). -/
def isort (le : α → α → Bool) : List α → List α
  | [] => []
  | x :: xs => insertS le x (isort le xs)

/-- Stable insertion of `x` where the comparator itself may throw
(the comparator is always called with the inserted element first). -/
def insertE (cmp : α → α → Except JsErr Int) (x : α) : List α → Except JsErr (List α)
  | [] => .ok [x]
  | y :: ys => do
    let c ← cmp x y
    if c ≤ 0 then
      return x :: y :: ys
    else
      let r ← insertE cmp x ys
      return y :: r

/-- Stable insertion sort in `Except`, modelling `Array.prototype.sort` with a
throwing comparator. -/
def isortE (cmp : α → α → Except JsErr Int) : List α → Except JsErr (List α)
  | [] => .ok []
  | x :: xs => do insertE cmp x (← isortE cmp xs)

end StableSort

/-! ## ProfileScreen.js — the list screen's pipeline (lines 1433–1719)

The screen's `HomeScreen` component holds the query state
(`searchQuery`, default `''`; `sortBy`, default `'name-asc'`;
`filterCategory`, default `'all'`) and recomputes `displayedProducts`
on every render from the raw `products` array returned by `useProducts`.
`useProducts` always supplies an array (initially `[]`), so the
`!productList || !Array.isArray(productList)` guards never fire and the
input is modelled as `List Product`. -/

/-- `filterProducts` (ProfileScreen.js:1433).  With a non-empty trimmed
`searchQuery` it keeps products whose `product.title.toLowerCase()` contains
`searchQuery.toLowerCase()`.  The title access has no fallback, so a missing
title throws a TypeError; `Array.prototype.filter` evaluates the predicate
left to right, so the first malformed product aborts the call. -/
def filterProductsGo (searchQuery : String) : List Product → Except JsErr (List Product)
  | [] => .ok []
  | p :: ps => do
    let titleLower ← match p.title with
      | none => .error JsErr.typeError
      | some t => .ok (jsToLower t)
    let queryLower := jsToLower searchQuery
    let rest ← filterProductsGo searchQuery ps
    if jsIncludes titleLower queryLower then
      return p :: rest
    else
      return rest

/-- `filterProducts` (ProfileScreen.js:1433): pass-through on an empty or
all-whitespace `searchQuery`, otherwise a title-substring filter. -/
def filterProducts (searchQuery : String) (productList : List Product) :
    Except JsErr (List Product) :=
  if (jsTrim searchQuery).data = [] then
    .ok productList
  else
    filterProductsGo searchQuery productList

/-- `filterByCategory` (ProfileScreen.js:1522): pass-through when
`filterCategory === 'all'`, otherwise keep products with
`product.category === filterCategory` (strict, case-sensitive; a missing
category compares unequal to any string and never throws). -/
def filterByCategory (filterCategory : String) (productList : List Product) :
    List Product :=
  if filterCategory = "all" then
    productList
  else
    productList.filter (fun p => p.category == some filterCategory)

/-- Executable code-point lexicographic strict order on character lists. -/
def strLtL : List Char → List Char → Bool
  | [], [] => false
  | [], _ :: _ => true
  | _ :: _, [] => false
  | a :: s, b :: t => if a < b then true else if b < a then false else strLtL s t

/-- Code-point comparison standing in for `a.localeCompare(b)`. -/
def strCmp (a b : String) : Int :=
  if strLtL a.data b.data then -1 else if strLtL b.data a.data then 1 else 0

/-- The `'name-asc'` comparator `(a, b) => a.title.localeCompare(b.title)`
(ProfileScreen.js:1612).  `a.title` of `undefined` throws a TypeError;
`localeCompare(undefined)` does not throw — JS stringifies the argument
to `"undefined"`. -/
def cmpNameAsc (a b : Product) : Except JsErr Int :=
  match a.title with
  | none => .error JsErr.typeError
  | some ta => .ok (strCmp ta (b.title.getD "undefined"))

/-- JS `a.price - b.price` on possibly missing prices, as seen by
`SortCompare`: a missing operand makes the subtraction `NaN`, which
`SortCompare` maps to `+0`. -/
def jsPriceSub (a b : Option Int) : Int :=
  match a, b with
  | some x, some y => x - y
  | _, _ => 0

/-- The `'price-asc'` comparator `(a, b) => a.price - b.price`
(ProfileScreen.js:1624); never throws. -/
def cmpPriceAsc (a b : Product) : Except JsErr Int :=
  .ok (jsPriceSub a.price b.price)

/-- The `'price-desc'` comparator `(a, b) => b.price - a.price`
(ProfileScreen.js:1636); never throws. -/
def cmpPriceDesc (a b : Product) : Except JsErr Int :=
  .ok (jsPriceSub b.price a.price)

/-- `sortProducts` (ProfileScreen.js:1574): copies the list and sorts it with
the comparator selected by `sortBy`; any unrecognized key returns the copy
unchanged. -/
def sortProducts (sortBy : String) (productList : List Product) :
    Except JsErr (List Product) :=
  match sortBy with
  | "name-asc" => isortE cmpNameAsc productList
  | "price-asc" => isortE cmpPriceAsc productList
  | "price-desc" => isortE cmpPriceDesc productList
  | _ => .ok productList

/-- `getProcessedProducts` (ProfileScreen.js:1664): category stage, then
search stage, then sort stage, reading the current query state. -/
def getProcessedProducts (products : List Product)
    (filterCategory searchQuery sortBy : String) : Except JsErr (List Product) := do
  let processed := filterByCategory filterCategory products
  let processed ← filterProducts searchQuery processed
  sortProducts sortBy processed

/-- The list screen's state: the query descriptor plus the raw collection
fetched once by `useProducts` (ProfileScreen.js:1381–1424). -/
structure ScreenState where
  searchQuery : String
  sortBy : String
  filterCategory : String
  products : List Product
  deriving Repr, DecidableEq

/-- The screen right after the raw collection has been fetched:
`searchQuery = ''`, `sortBy = 'name-asc'`, `filterCategory = 'all'`. -/
def initScreen (raw : List Product) : ScreenState :=
  { searchQuery := "", sortBy := "name-asc", filterCategory := "all", products := raw }

/-- A user interaction on the list screen.  Each handler calls exactly one
state setter (`onChangeText={setSearchQuery}`, `onPress={() => setSortBy ...}`,
`onPress={() => setFilterCategory ...}`); none touches `products`. -/
inductive UiAction where
  | setSearch (s : String)
  | setSort (k : String)
  | setCategory (c : String)
  deriving Repr, DecidableEq

/-- Apply one interaction to the screen state. -/
def applyAction (st : ScreenState) : UiAction → ScreenState
  | .setSearch s => { st with searchQuery := s }
  | .setSort k => { st with sortBy := k }
  | .setCategory c => { st with filterCategory := c }

/-- Apply a sequence of interactions, oldest first. -/
def applyActions (st : ScreenState) : List UiAction → ScreenState
  | [] => st
  | a :: as => applyActions (applyAction st a) as

/-- `displayedProducts` (ProfileScreen.js:1719): the list the screen renders,
recomputed from the state on every render. -/
def displayedProducts (st : ScreenState) : Except JsErr (List Product) :=
  getProcessedProducts st.products st.filterCategory st.searchQuery st.sortBy

/-! ## useProducts.js — the hook's own filter/sort/search handlers

The hook keeps `products` (raw) and `filteredProducts` states; each handler
replaces `filteredProducts`.  `handleSearch` and `handleFilter` recompute
from the raw `products`; `handleSort` re-orders the current
`filteredProducts`.  All field accesses carry `|| ''` / `|| 0` fallbacks,
so none of these handlers can throw; they are embedded with the same
`Except`-based combinators to make that a theorem rather than an
assumption. -/

/-- The predicate of `handleSearch` (useProducts.js:249–283):
`(product.title || '').toLowerCase().includes(searchLower) ||
 (product.description || '').toLowerCase().includes(searchLower)`
where `searchLower = query.toLowerCase()` (not trimmed). -/
def handleSearchPred (query : String) (p : Product) : Bool :=
  let searchLower := jsToLower query
  jsIncludes (jsToLower (p.title.getD "")) searchLower ||
    jsIncludes (jsToLower (p.description.getD "")) searchLower

/-- `handleSearch` (useProducts.js:202): the new `filteredProducts` computed
from the raw `products` and the query text.  An empty or all-whitespace query
resets to the full raw list. -/
def handleSearch (query : String) (products : List Product) : List Product :=
  if (jsTrim query).data = [] then
    products
  else
    products.filter (handleSearchPred query)

/-- The `'title'` comparator of `handleSort` (useProducts.js:332):
`(a, b) => (a.title || '').localeCompare(b.title || '')`. -/
def cmpTitleD (a b : Product) : Except JsErr Int :=
  .ok (strCmp (a.title.getD "") (b.title.getD ""))

/-- The `'price'` comparator of `handleSort` (useProducts.js:354):
`(a, b) => (a.price || 0) - (b.price || 0)`. -/
def cmpPriceD (a b : Product) : Except JsErr Int :=
  .ok (a.price.getD 0 - b.price.getD 0)

/-- `handleSort` (useProducts.js:302): copies `filteredProducts` and sorts the
copy when `sortBy` is `'title'` or `'price'`; every other value falls through
the `switch` to `default` and the copy is stored unchanged. -/
def handleSort (sortBy : String) (filteredProducts : List Product) :
    Except JsErr (List Product) :=
  match sortBy with
  | "title" => isortE cmpTitleD filteredProducts
  | "price" => isortE cmpPriceD filteredProducts
  | _ => .ok filteredProducts

/-- `handleFilter` (useProducts.js:399): the new `filteredProducts` computed
from the raw `products`.  A null/empty/whitespace category or (any casing of)
`'all'` resets to the full raw list; otherwise the match is
case-insensitive: `(product.category || '').toLowerCase() ===
category.toLowerCase()`. -/
def handleFilter (category : Option String) (products : List Product) :
    List Product :=
  match category with
  | none => products
  | some c =>
    if c = "" ∨ (jsTrim c).data = [] ∨ jsToLower c = "all" then
      products
    else
      products.filter (fun p => jsToLower (p.category.getD "") == jsToLower c)

/-! ## useProductDetail.js — the per-id fetch lifecycle (lines 43–308)

Each run of the effect (one per `productId` value) creates its own
`AbortController`; the cleanup function calls `controller.abort()`.  The
effect body runs `setError(null); setLoading(true)` synchronously before the
`await`, and after the fetch settles it checks `controller.signal.aborted`
before `setProduct`, before `setError`, and again in `finally` before
`setLoading(false)`.  React applies the state updates of one resumed
continuation as a batch, so each of the events below is atomic; effect
runs are numbered by a generation `Nat` identifying their controller. -/

/-- The hook's externally visible state: `product`, `loading`, `error`
(useProductDetail.js:52–70).  `product` starts as `null`. -/
structure DetailState where
  product : Option Product
  loading : Bool
  error : Option String
  deriving Repr, DecidableEq

/-- A whole hook run: the visible state plus the set of generations whose
`AbortController` has been aborted by the cleanup function. -/
structure HookRun where
  st : DetailState
  aborted : List Nat
  deriving Repr, DecidableEq

/-- The state at mount: `product = null`, `loading = true`, `error = null`. -/
def initHookRun : HookRun :=
  { st := { product := none, loading := true, error := none }, aborted := [] }

/-- One atomic lifecycle event of the hook. -/
inductive DEvent where
  /-- The effect for generation `g` starts: `setError(null); setLoading(true)`
  before the `await` (useProductDetail.js:129–137). -/
  | effectStart (g : Nat)
  /-- The fetch of generation `g` resolves with `d`: if `signal.aborted`,
  return without any state update; otherwise `setProduct(d)` and, after the
  `finally` re-check, `setLoading(false)` (useProductDetail.js:157–174, 222–231). -/
  | settleOk (g : Nat) (d : Product)
  /-- The fetch of generation `g` rejects with message `m`: if
  `signal.aborted`, return without any state update; otherwise `setError(m)`
  and, after the `finally` re-check, `setLoading(false)`
  (useProductDetail.js:185–202, 222–231). -/
  | settleErr (g : Nat) (m : String)
  /-- The cleanup for generation `g` runs (unmount or `productId` change):
  `controller.abort()` (useProductDetail.js:260–289). -/
  | cleanup (g : Nat)
  deriving Repr, DecidableEq

/-- Apply one lifecycle event. -/
def stepD (r : HookRun) : DEvent → HookRun
  | .effectStart _ =>
    { r with st := { r.st with error := none, loading := true } }
  | .settleOk g d =>
    if g ∈ r.aborted then r
    else { r with st := { r.st with product := some d, loading := false } }
  | .settleErr g m =>
    if g ∈ r.aborted then r
    else { r with st := { r.st with error := some m, loading := false } }
  | .cleanup g =>
    { r with aborted := g :: r.aborted }

/-- Run a sequence of lifecycle events from a given run state. -/
def runDFrom (r : HookRun) : List DEvent → HookRun
  | [] => r
  | e :: es => runDFrom (stepD r e) es

/-- Run a sequence of lifecycle events from the mount state. -/
def runD (es : List DEvent) : HookRun := runDFrom initHookRun es

/-- The `RequestState` invariant of spec §3: exactly one of
(loading, no data, no error), (not loading, data, no error),
(not loading, no data, error) holds. -/
def threeCombos (s : DetailState) : Prop :=
  (s.loading = true ∧ s.product = none ∧ s.error = none) ∨
    (s.loading = false ∧ s.product.isSome ∧ s.error = none) ∨
    (s.loading = false ∧ s.product = none ∧ s.error.isSome)

instance (s : DetailState) : Decidable (threeCombos s) := by
  unfold threeCombos; infer_instance

/-- Whether a trace contains a `settleOk` event. -/
def hasSettleOk : List DEvent → Bool
  | [] => false
  | .settleOk _ _ :: _ => true
  | _ :: es => hasSettleOk es

/-! ## api.js — the HTTP service layer (lines 60–527)

Each function is modelled against a network oracle
`net : String → NetResp` mapping a request URL to its response, and returns
the JS result together with the list of URLs actually requested, so that
"fails before and without any network request" is a statement about the
returned request list.  Response-body decoding always succeeds in the model
and `encodeURIComponent` is modelled as the identity (no claim concerns
malformed JSON or URL escaping). -/

/-- A JavaScript value as passed for an id or query argument. -/
inductive JsVal where
  | undef
  | jsNull
  | str (s : String)
  | num (n : Int)
  deriving Repr, DecidableEq

/-- JS string interpolation of a value (template literal). -/
def jsValToString : JsVal → String
  | .undef => "undefined"
  | .jsNull => "null"
  | .str s => s
  | .num n => toString n

/-- A network response: HTTP success flag and status, and the decoded
payload of the products endpoints. -/
structure NetResp where
  ok : Bool
  status : Nat
  productsPayload : List Product
  productPayload : Product
  deriving Repr

/-- The errors an api.js function can produce, by `throw` site. -/
inductive ApiErr where
  /-- A validation `throw new Error(...)` before any network call. -/
  | validation (msg : String)
  /-- `throw new Error('HTTP error! status: ...')`. -/
  | http (status : Nat)
  /-- `throw new Error('Product with ID ... not found')` (404 on the id endpoint). -/
  | notFound (idText : String)
  deriving Repr, DecidableEq

/-- `searchProducts` (api.js:166): throws `'Search query cannot be empty'`
when `!query || query.trim() === ''`, before any fetch; otherwise requests
the search endpoint.  The query is a string or null/undefined (`none`);
`!query` is true for `none` and `''`. -/
def searchProducts (query : Option String) (net : String → NetResp) :
    Except ApiErr (List Product) × List String :=
  if (query = none || query = some "") || (jsTrim (query.getD "")).data = [] then
    (.error (.validation "Search query cannot be empty"), [])
  else
    let url := "https://dummyjson.com/products/search?q=" ++ query.getD ""
    let r := net url
    if r.ok then (.ok r.productsPayload, [url])
    else (.error (.http r.status), [url])

/-- `fetchProductsByCategory` (api.js:291): throws `'Category cannot be
empty'` when `!category || category.trim() === ''`, before any fetch;
otherwise requests the category endpoint. -/
def fetchProductsByCategory (category : Option String) (net : String → NetResp) :
    Except ApiErr (List Product) × List String :=
  if (category = none || category = some "") || (jsTrim (category.getD "")).data = [] then
    (.error (.validation "Category cannot be empty"), [])
  else
    let url := "https://dummyjson.com/products/category/" ++ category.getD ""
    let r := net url
    if r.ok then (.ok r.productsPayload, [url])
    else (.error (.http r.status), [url])

/-- The URL `fetchProductById` requests for `id`. -/
def productUrl (id : JsVal) : String :=
  "https://dummyjson.com/products/" ++ jsValToString id

/-- `fetchProductById` (api.js:405): its parameter list is `(id)` only.
Throws `'Product ID is required and cannot be empty'` when
`id === null || id === undefined || id === ''`, before any fetch; otherwise
requests the single-product endpoint, mapping 404 to the not-found error. -/
def fetchProductById (id : JsVal) (net : String → NetResp) :
    Except ApiErr Product × List String :=
  if id = .jsNull ∨ id = .undef ∨ id = .str "" then
    (.error (.validation "Product ID is required and cannot be empty"), [])
  else
    let url := productUrl id
    let r := net url
    if r.ok then (.ok r.productPayload, [url])
    else if r.status = 404 then (.error (.notFound (jsValToString id)), [url])
    else (.error (.http r.status), [url])

/-- The call `fetchProductById(productId, controller.signal)` made by the
hook (useProductDetail.js:147).  `fetchProductById` declares a single
parameter, so by JavaScript calling convention the extra `signal` argument
is dropped at the call site; the abort signal is modelled as its
`aborted : Bool` flag. -/
def hookFetchProductById (id : JsVal) (_signal : Bool) (net : String → NetResp) :
    Except ApiErr Product × List String :=
  fetchProductById id net

/-! ## Concrete fixtures used by witnesses and counterexamples
(the first three are the raw set of spec §8's scenario examples) -/

/-- Scenario product 1: iPhone 9, smartphones, 549. -/
def sampleA : Product := ⟨1, some "iPhone 9", none, some "smartphones", some 549⟩

/-- Scenario product 2: Samsung Universe 9, smartphones, 1249. -/
def sampleB : Product := ⟨2, some "Samsung Universe 9", none, some "smartphones", some 1249⟩

/-- Scenario product 3: Red Lipstick, beauty, 12. -/
def sampleC : Product := ⟨3, some "Red Lipstick", none, some "beauty", some 12⟩

/-- A malformed product with no title, description, category or price. -/
def sampleNoTitle : Product := ⟨4, none, none, none, none⟩

/-- A product whose description, but not title, contains "lip". -/
def sampleCharger : Product := ⟨5, some "Charger", some "lipstick holder", some "beauty", some 7⟩

/-- A network oracle that answers every request successfully. -/
def sampleNet : String → NetResp := fun _ => ⟨true, 200, [sampleA], sampleA⟩

/-! ## Generic lemmas: decidability, substrings, trimming -/

instance {ε α : Type _} [DecidableEq ε] [DecidableEq α] : DecidableEq (Except ε α) := fun x y =>
  match x, y with
  | .ok a, .ok b =>
    if h : a = b then .isTrue (by rw [h]) else .isFalse (by intro hc; cases hc; exact h rfl)
  | .error a, .error b =>
    if h : a = b then .isTrue (by rw [h]) else .isFalse (by intro hc; cases hc; exact h rfl)
  | .ok _, .error _ => .isFalse (by intro hc; cases hc)
  | .error _, .ok _ => .isFalse (by intro hc; cases hc)

theorem startsW_iff (t s : List Char) : startsW s t = true ↔ ∃ v, s = t ++ v := by
  induction t generalizing s with
  | nil => simp [startsW]
  | cons b t ih =>
    cases s with
    | nil =>
      simp [startsW]
    | cons a s =>
      simp only [startsW, Bool.and_eq_true, beq_iff_eq, ih]
      constructor
      · rintro ⟨rfl, v, rfl⟩
        exact ⟨v, rfl⟩
      · rintro ⟨v, hv⟩
        cases hv
        exact ⟨rfl, v, rfl⟩

theorem containsSub_iff (s t : List Char) :
    containsSub s t = true ↔ ∃ u v, s = u ++ t ++ v := by
  induction s with
  | nil =>
    rw [containsSub]
    cases t with
    | nil => exact ⟨fun _ => ⟨[], [], rfl⟩, fun _ => rfl⟩
    | cons b tb =>
      constructor
      · intro h
        cases h
      · rintro ⟨u, v, huv⟩
        rcases List.append_eq_nil.mp huv.symm with ⟨h1, h2⟩
        rcases List.append_eq_nil.mp h1 with ⟨rfl, h3⟩
        cases h3
  | cons a s ih =>
    rw [containsSub]
    simp only [Bool.or_eq_true, startsW_iff, ih]
    constructor
    · rintro (⟨v, hv⟩ | ⟨u, v, huv⟩)
      · exact ⟨[], v, by simpa using hv⟩
      · exact ⟨a :: u, v, by simp [huv]⟩
    · rintro ⟨u, v, huv⟩
      cases u with
      | nil => exact Or.inl ⟨v, by simpa using huv⟩
      | cons x u =>
        rw [List.cons_append, List.cons_append] at huv
        cases huv
        exact Or.inr ⟨u, v, by simp⟩

theorem containsSub_trans {a b c : List Char} (hab : containsSub a b = true)
    (hbc : containsSub b c = true) : containsSub a c = true := by
  rcases (containsSub_iff a b).mp hab with ⟨u, v, rfl⟩
  rcases (containsSub_iff b c).mp hbc with ⟨u', v', rfl⟩
  exact (containsSub_iff _ c).mpr ⟨u ++ u', v' ++ v, by simp⟩

theorem containsSub_map (f : Char → Char) {s t : List Char}
    (h : containsSub s t = true) : containsSub (s.map f) (t.map f) = true := by
  rcases (containsSub_iff s t).mp h with ⟨u, v, rfl⟩
  exact (containsSub_iff _ _).mpr ⟨u.map f, v.map f, by simp⟩

theorem jsTrimL_decomp (l : List Char) : ∃ u v, l = u ++ jsTrimL l ++ v := by
  refine ⟨l.takeWhile jsWhitespace,
    ((l.dropWhile jsWhitespace).reverse.takeWhile jsWhitespace).reverse, ?_⟩
  unfold jsTrimL
  conv_lhs => rw [← List.takeWhile_append_dropWhile (p := jsWhitespace) (l := l)]
  rw [List.append_assoc]
  congr 1
  conv_lhs =>
    rw [← List.reverse_reverse (l.dropWhile jsWhitespace),
      ← List.takeWhile_append_dropWhile (p := jsWhitespace)
        (l := (l.dropWhile jsWhitespace).reverse)]
  rw [List.reverse_append]

theorem jsIncludes_of_trim {s q : String} (h : jsIncludes s (jsToLower q) = true) :
    jsIncludes s (jsToLower (jsTrim q)) = true := by
  rcases jsTrimL_decomp q.data with ⟨u, v, hq⟩
  have hsub : containsSub q.data (jsTrim q).data = true :=
    (containsSub_iff _ _).mpr ⟨u, v, hq⟩
  have hlow : containsSub (jsToLower q).data (jsToLower (jsTrim q)).data = true :=
    containsSub_map Char.toLower hsub
  exact containsSub_trans h hlow

/-! ## Generic lemmas: the stable sort -/

section StableSortLemmas

variable {α : Type _}

theorem mem_insertS {le : α → α → Bool} {x y : α} {l : List α} :
    y ∈ insertS le x l ↔ y = x ∨ y ∈ l := by
  induction l with
  | nil => simp [insertS]
  | cons z zs ih =>
    rw [insertS]
    split
    · simp
    · simp only [List.mem_cons, ih]
      tauto

theorem mem_isort {le : α → α → Bool} {y : α} {l : List α} :
    y ∈ isort le l ↔ y ∈ l := by
  induction l with
  | nil => simp [isort]
  | cons x xs ih => simp [isort, mem_insertS, ih]

theorem perm_insertS (le : α → α → Bool) (x : α) (l : List α) :
    (insertS le x l).Perm (x :: l) := by
  induction l with
  | nil => simp [insertS]
  | cons z zs ih =>
    rw [insertS]
    split
    · exact List.Perm.refl _
    · exact (List.Perm.cons z ih).trans (List.Perm.swap x z zs)

theorem perm_isort (le : α → α → Bool) (l : List α) : (isort le l).Perm l := by
  induction l with
  | nil => simp [isort]
  | cons x xs ih => exact (perm_insertS le x (isort le xs)).trans (ih.cons x)

theorem pairwise_insertS (le : α → α → Bool) {x : α} {l : List α}
    (hl : l.Pairwise (fun a b => le a b = true))
    (htot : ∀ y ∈ l, le x y = true ∨ le y x = true)
    (htrans : ∀ y ∈ l, ∀ z ∈ l, le x y = true → le y z = true → le x z = true) :
    (insertS le x l).Pairwise (fun a b => le a b = true) := by
  induction l with
  | nil => simp [insertS]
  | cons y ys ih =>
    rw [insertS]
    rcases List.pairwise_cons.mp hl with ⟨hy, hys⟩
    split
    · rename_i hxy
      refine List.pairwise_cons.mpr ⟨?_, hl⟩
      intro z hz
      rcases List.mem_cons.mp hz with rfl | hz'
      · exact hxy
      · exact htrans y (by simp) z (by simp [hz']) hxy (hy z hz')
    · rename_i hxy
      have hyx : le y x = true := by
        rcases htot y (by simp) with h | h
        · exact absurd h hxy
        · exact h
      refine List.pairwise_cons.mpr ⟨?_, ?_⟩
      · intro z hz
        rcases mem_insertS.mp hz with rfl | hz'
        · exact hyx
        · exact hy z hz'
      · exact ih hys (fun z hz => htot z (by simp [hz]))
          (fun z hz w hw => htrans z (by simp [hz]) w (by simp [hw]))

theorem pairwise_isort (le : α → α → Bool) {l : List α}
    (htot : ∀ x ∈ l, ∀ y ∈ l, le x y = true ∨ le y x = true)
    (htrans : ∀ x ∈ l, ∀ y ∈ l, ∀ z ∈ l,
      le x y = true → le y z = true → le x z = true) :
    (isort le l).Pairwise (fun a b => le a b = true) := by
  induction l with
  | nil => simp [isort]
  | cons x xs ih =>
    rw [isort]
    have hxs : ∀ y ∈ isort le xs, y ∈ xs := fun y hy => mem_isort.mp hy
    exact pairwise_insertS le
      (ih (fun a ha b hb => htot a (by simp [ha]) b (by simp [hb]))
        (fun a ha b hb c hc =>
          htrans a (by simp [ha]) b (by simp [hb]) c (by simp [hc])))
      (fun y hy => htot x (by simp) y (by simp [hxs y hy]))
      (fun y hy z hz => htrans x (by simp) y (by simp [hxs y hy]) z (by simp [hxs z hz]))

theorem filter_insertS (key : α → β) {le : α → α → Bool} {x : α} {l : List α}
    [DecidableEq β]
    (hkey : ∀ y ∈ l, key x = key y → le x y = true) (k : β) :
    (insertS le x l).filter (fun y => key y = k) =
      if key x = k then x :: l.filter (fun y => key y = k)
      else l.filter (fun y => key y = k) := by
  induction l with
  | nil =>
    simp only [insertS, List.filter]
    split <;> simp_all
  | cons y ys ih =>
    rw [insertS]
    split
    · rw [List.filter]
      split <;> simp_all
    · rename_i hxy
      have hky : key x ≠ key y := fun h => hxy (hkey y (by simp) h)
      have ih' := ih (fun z hz h => hkey z (by simp [hz]) h)
      by_cases hy : key y = k
      · have hkx : key x ≠ k := fun h => hky (h.trans hy.symm)
        rw [List.filter_cons_of_pos (by simpa using hy), ih']
        simp only [if_neg hkx]
        rw [List.filter_cons_of_pos (by simpa using hy)]
      · rw [List.filter_cons_of_neg (by simpa using hy), ih']
        by_cases hkx : key x = k
        · simp only [if_pos hkx]
          rw [List.filter_cons_of_neg (by simpa using hy)]
        · simp only [if_neg hkx]
          rw [List.filter_cons_of_neg (by simpa using hy)]

theorem filter_isort (key : α → β) {le : α → α → Bool} {l : List α}
    [DecidableEq β]
    (hkey : ∀ x ∈ l, ∀ y ∈ l, key x = key y → le x y = true) (k : β) :
    (isort le l).filter (fun y => key y = k) = l.filter (fun y => key y = k) := by
  induction l with
  | nil => simp [isort]
  | cons x xs ih =>
    rw [isort, filter_insertS key (fun y hy h => hkey x (by simp) y (by simp [mem_isort.mp hy]) h) k]
    rw [ih (fun a ha b hb h => hkey a (by simp [ha]) b (by simp [hb]) h)]
    rw [List.filter]
    split <;> simp_all

theorem insertE_ok_of_cmp {cmp : α → α → Except JsErr Int} {f : α → α → Int}
    {x : α} {l : List α} (h : ∀ y ∈ l, cmp x y = .ok (f x y)) :
    insertE cmp x l = .ok (insertS (fun a b => f a b ≤ 0) x l) := by
  induction l with
  | nil => simp [insertE, insertS]
  | cons y ys ih =>
    rw [insertE, insertS, h y (by simp)]
    rw [ih (fun z hz => h z (by simp [hz]))]
    simp only [Bind.bind, Except.bind]
    split
    · rename_i hc
      simp [pure, Except.pure, if_pos hc]
    · rename_i hc
      simp [pure, Except.pure, if_neg hc]

theorem isortE_ok_of_cmp {cmp : α → α → Except JsErr Int} {f : α → α → Int}
    {l : List α} (h : ∀ x ∈ l, ∀ y ∈ l, cmp x y = .ok (f x y)) :
    isortE cmp l = .ok (isort (fun a b => f a b ≤ 0) l) := by
  induction l with
  | nil => simp [isortE, isort]
  | cons x xs ih =>
    rw [isortE, isort]
    rw [ih (fun a ha b hb => h a (by simp [ha]) b (by simp [hb]))]
    simp only [Bind.bind, Except.bind]
    exact insertE_ok_of_cmp
      (fun y hy => h x (by simp) y (by simp [mem_isort.mp hy]))

end StableSortLemmas

/-! ## Lemmas about the ProfileScreen pipeline -/

theorem filterProductsGo_mem {q : String} {ps r : List Product}
    (h : filterProductsGo q ps = .ok r) :
    ∀ p ∈ r, p ∈ ps ∧ ∃ t, p.title = some t ∧
      jsIncludes (jsToLower t) (jsToLower q) = true := by
  induction ps generalizing r with
  | nil =>
    rw [filterProductsGo] at h
    cases h
    simp
  | cons p0 ps ih =>
    rw [filterProductsGo] at h
    simp only [Bind.bind, Except.bind] at h
    split at h
    · cases h
    · rename_i t ht
      split at h
      · cases h
      · rename_i rest hgo
        split at h
        · rename_i hi
          cases h
          intro p hp
          rcases List.mem_cons.mp hp with rfl | hp'
          · exact ⟨by simp, t, ht, hi⟩
          · rcases ih hgo p hp' with ⟨hmem, hw⟩
            exact ⟨by simp [hmem], hw⟩
        · cases h
          intro p hp
          rcases ih hgo p hp with ⟨hmem, hw⟩
          exact ⟨by simp [hmem], hw⟩

theorem filterProducts_mem {q : String} {ps r : List Product}
    (hq : (jsTrim q).data ≠ []) (h : filterProducts q ps = .ok r) :
    ∀ p ∈ r, p ∈ ps ∧ ∃ t, p.title = some t ∧
      jsIncludes (jsToLower t) (jsToLower q) = true := by
  rw [filterProducts, if_neg hq] at h
  exact filterProductsGo_mem h

theorem filterProducts_sub {q : String} {ps r : List Product}
    (h : filterProducts q ps = .ok r) : ∀ p ∈ r, p ∈ ps := by
  rw [filterProducts] at h
  split at h
  · cases h
    intro p hp
    exact hp
  · intro p hp
    exact (filterProductsGo_mem h p hp).1

theorem filterByCategory_mem {cat : String} {ps : List Product}
    (hcat : cat ≠ "all") :
    ∀ p ∈ filterByCategory cat ps, p ∈ ps ∧ p.category = some cat := by
  intro p hp
  rw [filterByCategory, if_neg hcat] at hp
  rcases List.mem_filter.mp hp with ⟨hmem, hc⟩
  exact ⟨hmem, by simpa using hc⟩

theorem filterByCategory_sub {cat : String} {ps : List Product} :
    ∀ p ∈ filterByCategory cat ps, p ∈ ps := by
  intro p hp
  rw [filterByCategory] at hp
  split at hp
  · exact hp
  · exact (List.mem_filter.mp hp).1

theorem insertE_ok_mem {α : Type _} {cmp : α → α → Except JsErr Int}
    {x : α} {l r : List α} (h : insertE cmp x l = .ok r) :
    ∀ y ∈ r, y = x ∨ y ∈ l := by
  induction l generalizing r with
  | nil =>
    rw [insertE] at h
    cases h
    simp
  | cons z zs ih =>
    rw [insertE] at h
    simp only [Bind.bind, Except.bind] at h
    split at h
    · cases h
    · rename_i c hc
      split at h
      · cases h
        intro y hy
        simpa using hy
      · split at h
        · cases h
        · rename_i r' hr
          cases h
          intro y hy
          rcases List.mem_cons.mp hy with rfl | hy'
          · exact Or.inr (by simp)
          · rcases ih hr y hy' with rfl | hmem
            · exact Or.inl rfl
            · exact Or.inr (by simp [hmem])

theorem isortE_ok_mem {α : Type _} {cmp : α → α → Except JsErr Int}
    {l r : List α} (h : isortE cmp l = .ok r) : ∀ y ∈ r, y ∈ l := by
  induction l generalizing r with
  | nil =>
    rw [isortE] at h
    cases h
    simp
  | cons x xs ih =>
    rw [isortE] at h
    simp only [Bind.bind, Except.bind] at h
    cases hs : isortE cmp xs with
    | error e => rw [hs] at h; cases h
    | ok s =>
      rw [hs] at h
      intro y hy
      rcases insertE_ok_mem h y hy with rfl | hmem
      · simp
      · simp [ih hs y hmem]

theorem sortProducts_ok_mem {k : String} {l r : List Product}
    (h : sortProducts k l = .ok r) : ∀ p ∈ r, p ∈ l := by
  unfold sortProducts at h
  split at h
  · exact isortE_ok_mem h
  · exact isortE_ok_mem h
  · exact isortE_ok_mem h
  · cases h
    intro p hp
    exact hp

theorem getProcessedProducts_ok_mem {ps : List Product} {cat q k : String}
    {r : List Product} (h : getProcessedProducts ps cat q k = .ok r) :
    ∀ p ∈ r, p ∈ filterByCategory cat ps := by
  rw [getProcessedProducts] at h
  simp only [Bind.bind, Except.bind] at h
  cases hf : filterProducts q (filterByCategory cat ps) with
  | error e => rw [hf] at h; cases h
  | ok m =>
    rw [hf] at h
    intro p hp
    exact filterProducts_sub hf p (sortProducts_ok_mem h p hp)

theorem getProcessedProducts_ok_search {ps : List Product} {cat q k : String}
    {r : List Product} (hq : (jsTrim q).data ≠ [])
    (h : getProcessedProducts ps cat q k = .ok r) :
    ∀ p ∈ r, ∃ t, p.title = some t ∧
      jsIncludes (jsToLower t) (jsToLower q) = true := by
  rw [getProcessedProducts] at h
  simp only [Bind.bind, Except.bind] at h
  cases hf : filterProducts q (filterByCategory cat ps) with
  | error e => rw [hf] at h; cases h
  | ok m =>
    rw [hf] at h
    intro p hp
    exact (filterProducts_mem hq hf p (sortProducts_ok_mem h p hp)).2

/-! ## Lemmas about the comparators -/

theorem strLtL_asymm : ∀ {a b : List Char}, strLtL a b = true → strLtL b a = false := by
  intro a
  induction a with
  | nil =>
    intro b h
    cases b with
    | nil => simp [strLtL] at h
    | cons y t => rfl
  | cons x s ih =>
    intro b h
    cases b with
    | nil => simp [strLtL] at h
    | cons y t =>
      rw [strLtL] at h ⊢
      by_cases hxy : x < y
      · rw [if_neg (lt_asymm hxy), if_pos hxy]
      · by_cases hyx : y < x
        · rw [if_neg hxy, if_pos hyx] at h
          cases h
        · rw [if_neg hxy, if_neg hyx] at h
          rw [if_neg hyx, if_neg hxy]
          exact ih h

theorem strLtL_trans : ∀ {a b c : List Char},
    strLtL a b = true → strLtL b c = true → strLtL a c = true := by
  intro a
  induction a with
  | nil =>
    intro b c hab hbc
    cases c with
    | nil =>
      cases b with
      | nil => simp [strLtL] at hab
      | cons y t => simp [strLtL] at hbc
    | cons z u => rfl
  | cons x s ih =>
    intro b c hab hbc
    cases b with
    | nil => simp [strLtL] at hab
    | cons y t =>
      cases c with
      | nil => simp [strLtL] at hbc
      | cons z u =>
        rw [strLtL] at hab hbc ⊢
        by_cases hxy : x < y
        · rw [if_pos hxy] at hab
          by_cases hyz : y < z
          · rw [if_pos (lt_trans hxy hyz)]
          · by_cases hzy : z < y
            · rw [if_neg hyz, if_pos hzy] at hbc
              cases hbc
            · have hyzeq : y = z := by
                rcases lt_trichotomy y z with h | h | h
                · exact absurd h hyz
                · exact h
                · exact absurd h hzy
              rw [if_pos (hyzeq ▸ hxy)]
        · by_cases hyx : y < x
          · rw [if_neg hxy, if_pos hyx] at hab
            cases hab
          · have hxyeq : x = y := by
              rcases lt_trichotomy x y with h | h | h
              · exact absurd h hxy
              · exact h
              · exact absurd h hyx
            rw [if_neg hxy, if_neg hyx] at hab
            by_cases hyz : y < z
            · rw [if_pos (hxyeq ▸ hyz)]
            · by_cases hzy : z < y
              · rw [if_neg hyz, if_pos hzy] at hbc
                cases hbc
              · rw [if_neg hyz, if_neg hzy] at hbc
                rw [if_neg (hxyeq ▸ hyz), if_neg (hxyeq ▸ hzy)]
                exact ih hab hbc

theorem strLtL_connex : ∀ {a b : List Char},
    strLtL a b = false → strLtL b a = false → a = b := by
  intro a
  induction a with
  | nil =>
    intro b h1 _
    cases b with
    | nil => rfl
    | cons y t => simp [strLtL] at h1
  | cons x s ih =>
    intro b h1 h2
    cases b with
    | nil => simp [strLtL] at h2
    | cons y t =>
      rw [strLtL] at h1 h2
      by_cases hxy : x < y
      · rw [if_pos hxy] at h1
        cases h1
      · by_cases hyx : y < x
        · rw [if_pos hyx] at h2
          cases h2
        · have hxyeq : x = y := by
            rcases lt_trichotomy x y with h | h | h
            · exact absurd h hxy
            · exact h
            · exact absurd h hyx
          rw [if_neg hxy, if_neg hyx] at h1
          rw [if_neg hyx, if_neg hxy] at h2
          rw [hxyeq, ih h1 h2]

theorem strLtL_le_total (a b : List Char) :
    strLtL b a = false ∨ strLtL a b = false := by
  by_cases h : strLtL b a = true
  · exact Or.inr (strLtL_asymm h)
  · exact Or.inl (Bool.not_eq_true _ ▸ h)

theorem strLtL_le_trans {a b c : List Char}
    (h1 : strLtL b a = false) (h2 : strLtL c b = false) : strLtL c a = false := by
  by_cases hca : strLtL c a = true
  · by_cases hab : strLtL a b = true
    · exact absurd (strLtL_trans hca hab) (by simp [h2])
    · have : a = b := strLtL_connex (Bool.not_eq_true _ ▸ hab) h1
      rw [← this] at h2
      exact absurd hca (by simp [h2])
  · exact Bool.not_eq_true _ ▸ hca

theorem strCmp_le_zero {a b : String} :
    strCmp a b ≤ 0 ↔ strLtL b.data a.data = false := by
  unfold strCmp
  split
  · rename_i h
    simp [strLtL_asymm h]
  · split
    · rename_i h1 h2
      simp [h2]
    · rename_i h1 h2
      rw [Bool.not_eq_true] at h2
      simp [h2]

theorem filterProductsGo_error {q : String} {ps : List Product} {p : Product}
    (hp : p ∈ ps) (ht : p.title = none) :
    filterProductsGo q ps = .error .typeError := by
  induction ps with
  | nil => cases hp
  | cons p0 ps ih =>
    rw [filterProductsGo]
    rcases List.mem_cons.mp hp with rfl | hp'
    · rw [ht]
      rfl
    · cases ht0 : p0.title with
      | none => rfl
      | some t =>
        simp only [Bind.bind, Except.bind, ih hp']

/-! ## Lemmas about the detail-fetch lifecycle -/

theorem runDFrom_append (r : HookRun) (es es' : List DEvent) :
    runDFrom r (es ++ es') = runDFrom (runDFrom r es) es' := by
  induction es generalizing r with
  | nil => rfl
  | cons e es ih => rw [List.cons_append, runDFrom, runDFrom, ih]

theorem stepD_aborted_mono {r : HookRun} {g : Nat} (e : DEvent)
    (h : g ∈ r.aborted) : g ∈ (stepD r e).aborted := by
  cases e with
  | effectStart _ => exact h
  | settleOk g' d => rw [stepD]; split <;> exact h
  | settleErr g' m => rw [stepD]; split <;> exact h
  | cleanup g' => exact List.mem_cons_of_mem g' h

theorem runDFrom_aborted_mono {r : HookRun} {g : Nat} (es : List DEvent)
    (h : g ∈ r.aborted) : g ∈ (runDFrom r es).aborted := by
  induction es generalizing r with
  | nil => exact h
  | cons e es ih => exact ih (stepD_aborted_mono e h)

theorem stepD_loading_error {r : HookRun} (e : DEvent)
    (h : r.st.loading = true → r.st.error = none) :
    (stepD r e).st.loading = true → (stepD r e).st.error = none := by
  cases e with
  | effectStart g => intro _; rfl
  | settleOk g d =>
    rw [stepD]; split
    · exact h
    · intro hl; cases hl
  | settleErr g m =>
    rw [stepD]; split
    · exact h
    · intro hl; cases hl
  | cleanup g => exact h

theorem runDFrom_loading_error {r : HookRun} (es : List DEvent)
    (h : r.st.loading = true → r.st.error = none) :
    (runDFrom r es).st.loading = true → (runDFrom r es).st.error = none := by
  induction es generalizing r with
  | nil => exact h
  | cons e es ih => exact ih (stepD_loading_error e h)

theorem stepD_threeCombos (r : HookRun) (e : DEvent)
    (hprod : r.st.product = none) (hQ : threeCombos r.st)
    (hok : ∀ g d, e ≠ .settleOk g d) :
    (stepD r e).st.product = none ∧ threeCombos (stepD r e).st := by
  cases e with
  | effectStart g =>
    exact ⟨hprod, Or.inl ⟨rfl, hprod, rfl⟩⟩
  | settleOk g d => exact absurd rfl (hok g d)
  | settleErr g m =>
    rw [stepD]; split
    · exact ⟨hprod, hQ⟩
    · exact ⟨hprod, Or.inr (Or.inr ⟨rfl, hprod, rfl⟩)⟩
  | cleanup g => exact ⟨hprod, hQ⟩

theorem runDFrom_threeCombos {r : HookRun} (es : List DEvent)
    (hprod : r.st.product = none) (hQ : threeCombos r.st)
    (hok : hasSettleOk es = false) :
    (runDFrom r es).st.product = none ∧ threeCombos (runDFrom r es).st := by
  induction es generalizing r with
  | nil => exact ⟨hprod, hQ⟩
  | cons e es ih =>
    have hok' : hasSettleOk es = false ∧ ∀ g d, e ≠ DEvent.settleOk g d := by
      cases e with
      | settleOk g d => rw [hasSettleOk] at hok; cases hok
      | effectStart g => exact ⟨hok, by intro g d h; cases h⟩
      | settleErr g m => exact ⟨hok, by intro g d h; cases h⟩
      | cleanup g => exact ⟨hok, by intro g d h; cases h⟩
    rcases stepD_threeCombos r e hprod hQ hok'.2 with ⟨h1, h2⟩
    exact ih h1 h2 hok'.1

/-! ## Lemmas about the screen state machine -/

theorem applyAction_products (st : ScreenState) (a : UiAction) :
    (applyAction st a).products = st.products := by
  cases a <;> rfl

theorem applyActions_products (st : ScreenState) (acts : List UiAction) :
    (applyActions st acts).products = st.products := by
  induction acts generalizing st with
  | nil => rfl
  | cons a acts ih => rw [applyActions, ih, applyAction_products]

/-! ## The claims -/

/-- Claim C1: for every raw product collection and every query descriptor whose
category field is not `"all"`, every element of the displayed list has a
`category` attribute exactly (case-sensitively) equal to the query's category;
no element with a differing or differently-cased category appears.  The
displayed list is `displayedProducts` (ProfileScreen.js:1719), whose category
stage `filterByCategory` keeps exactly the products with
`product.category === filterCategory`. -/
theorem c1_category_narrowing (st : ScreenState) (l : List Product)
    (h : displayedProducts st = .ok l) (hcat : st.filterCategory ≠ "all") :
    ∀ p ∈ l, p.category = some st.filterCategory := by
  unfold displayedProducts at h
  intro p hp
  exact (filterByCategory_mem hcat p (getProcessedProducts_ok_mem h p hp)).2

/-- Witness for C1 on spec §8's scenario collection with category
`"smartphones"`. -/
theorem c1_category_narrowing_witness :
    displayedProducts
        { searchQuery := "", sortBy := "price-desc", filterCategory := "smartphones",
          products := [sampleA, sampleB, sampleC] } = .ok [sampleB, sampleA] ∧
    ("smartphones" : String) ≠ "all" ∧
    ∀ p ∈ [sampleB, sampleA], p.category = some "smartphones" :=
  ⟨by decide, by decide,
    c1_category_narrowing
      { searchQuery := "", sortBy := "price-desc", filterCategory := "smartphones",
        products := [sampleA, sampleB, sampleC] }
      [sampleB, sampleA] (by decide) (by decide)⟩

/-- Claim C2: after any sequence of user interactions (typing, tapping a
category, tapping a sort option), the displayed list equals the pure
projection of the already-fetched raw collection under the final query
descriptor — the category stage, then the search stage, then the sort stage,
in that fixed order; no stage's effect is discarded by a later interaction
and the raw collection is never refetched or modified. -/
theorem c2_display_equals_projection (raw : List Product) (acts : List UiAction) :
    displayedProducts (applyActions (initScreen raw) acts) =
      getProcessedProducts raw
        (applyActions (initScreen raw) acts).filterCategory
        (applyActions (initScreen raw) acts).searchQuery
        (applyActions (initScreen raw) acts).sortBy ∧
    ∀ cat q k, getProcessedProducts raw cat q k =
      (filterProducts q (filterByCategory cat raw)).bind (sortProducts k) := by
  constructor
  · rw [displayedProducts, applyActions_products]
    rfl
  · intro cat q k
    rfl

/-- Counterexample for C3: `handleSearch` (useProducts.js:202) is a search
stage that retains a product whose title does not contain the search text at
all, because its predicate also matches the description: for the search text
`"lip"`, a product titled `"Charger"` with description `"lipstick holder"`
is retained, yet its lower-cased title does not contain the trimmed
lower-cased search text. -/
theorem c3_counterexample :
    handleSearch "lip" [sampleCharger] = [sampleCharger] ∧
    sampleCharger.title = some "Charger" ∧
    jsIncludes (jsToLower "Charger") (jsToLower (jsTrim "lip")) = false := by
  decide

/-- Claim C3 as amended: for a non-empty (not all-whitespace) search text,
every element of the displayed list (whose search stage is `filterProducts`,
matching titles only) has a title whose lower-cased form contains the trimmed
lower-cased search text; the `handleSearch` stage of `useProducts`, however,
retains exactly the products whose lower-cased title **or description**
contains the (untrimmed) lower-cased search text, so a product retained
there may lack the search text in its title. -/
theorem c3_search_containment_amended :
    (∀ (st : ScreenState) (l : List Product), displayedProducts st = .ok l →
      (jsTrim st.searchQuery).data ≠ [] →
      ∀ p ∈ l, ∃ t, p.title = some t ∧
        jsIncludes (jsToLower t) (jsToLower (jsTrim st.searchQuery)) = true) ∧
    (∀ (q : String) (ps : List Product) (p : Product), (jsTrim q).data ≠ [] →
      (p ∈ handleSearch q ps ↔ p ∈ ps ∧ handleSearchPred q p = true)) := by
  constructor
  · intro st l h hq p hp
    unfold displayedProducts at h
    rcases getProcessedProducts_ok_search hq h p hp with ⟨t, ht, hinc⟩
    exact ⟨t, ht, jsIncludes_of_trim hinc⟩
  · intro q ps p hq
    rw [handleSearch, if_neg hq, List.mem_filter]

/-- Witness for C3's amended statement: the scenario query `"lip"` on the
scenario collection displays exactly the lipstick, whose title contains the
search text; and the `handleSearch` retention predicate is exercised on the
description-only match. -/
theorem c3_search_containment_amended_witness :
    (∃ t, sampleC.title = some t ∧
      jsIncludes (jsToLower t) (jsToLower (jsTrim "lip")) = true) ∧
    (sampleCharger ∈ handleSearch "lip" [sampleCharger] ↔
      sampleCharger ∈ [sampleCharger] ∧ handleSearchPred "lip" sampleCharger = true) :=
  ⟨c3_search_containment_amended.1
      { searchQuery := "lip", sortBy := "name-asc", filterCategory := "all",
        products := [sampleA, sampleB, sampleC] }
      [sampleC] (by decide) (by decide) sampleC (by decide),
    c3_search_containment_amended.2 "lip" [sampleCharger] sampleCharger (by decide)⟩

theorem strLtL_irrefl (a : List Char) : strLtL a a = false := by
  by_cases h : strLtL a a = true
  · exact strLtL_asymm h
  · exact Bool.not_eq_true _ ▸ h

/-- Claim C4: for every input list (of well-formed products), `sortProducts`
under `price-desc` is non-increasing in price, under `price-asc`
non-decreasing in price, and under `name-asc` lexicographically ordered on
title (`strLtL` is the modelled `localeCompare` order); in every case two
elements with equal sort keys keep the relative order of the input, stated
as: filtering the output by any sort-key value yields exactly the input
filtered by that value.  The embedding is pure and `sortProducts` copies the
list before sorting, so the input sequence is never mutated. -/
theorem c4_sort_correct (ps : List Product)
    (h1 : ∀ p ∈ ps, p.price.isSome) (h2 : ∀ p ∈ ps, p.title.isSome) :
    ∃ la ld ln,
      (sortProducts "price-asc" ps = .ok la ∧
        la.Pairwise (fun a b => a.price.getD 0 ≤ b.price.getD 0) ∧
        ∀ v : Option Int, la.filter (fun p => p.price = v) =
          ps.filter (fun p => p.price = v)) ∧
      (sortProducts "price-desc" ps = .ok ld ∧
        ld.Pairwise (fun a b => b.price.getD 0 ≤ a.price.getD 0) ∧
        ∀ v : Option Int, ld.filter (fun p => p.price = v) =
          ps.filter (fun p => p.price = v)) ∧
      (sortProducts "name-asc" ps = .ok ln ∧
        ln.Pairwise (fun a b =>
          strLtL (b.title.getD "").data (a.title.getD "").data = false) ∧
        ∀ v : Option String, ln.filter (fun p => p.title = v) =
          ps.filter (fun p => p.title = v)) := by
  refine ⟨isort (fun a b : Product => decide (jsPriceSub a.price b.price ≤ 0)) ps,
    isort (fun a b : Product => decide (jsPriceSub b.price a.price ≤ 0)) ps,
    isort (fun a b : Product =>
      decide (strCmp (a.title.getD "") (b.title.getD "undefined") ≤ 0)) ps,
    ⟨?_, ?_, ?_⟩, ⟨?_, ?_, ?_⟩, ⟨?_, ?_, ?_⟩⟩
  · exact isortE_ok_of_cmp (f := fun a b : Product => jsPriceSub a.price b.price)
      (fun x _ y _ => rfl)
  · refine List.Pairwise.imp_of_mem ?_
      (pairwise_isort
        (fun a b : Product => decide (jsPriceSub a.price b.price ≤ 0)) ?_ ?_)
    · intro a b ha hb hle
      rcases Option.isSome_iff_exists.mp (h1 a (mem_isort.mp ha)) with ⟨pa, hpa⟩
      rcases Option.isSome_iff_exists.mp (h1 b (mem_isort.mp hb)) with ⟨pb, hpb⟩
      simp only [hpa, hpb, jsPriceSub, decide_eq_true_eq] at hle
      simp only [hpa, hpb, Option.getD_some]
      omega
    · intro x hx y hy
      rcases Option.isSome_iff_exists.mp (h1 x hx) with ⟨px, hpx⟩
      rcases Option.isSome_iff_exists.mp (h1 y hy) with ⟨py, hpy⟩
      simp only [hpx, hpy, jsPriceSub, decide_eq_true_eq]
      omega
    · intro x hx y hy z hz
      rcases Option.isSome_iff_exists.mp (h1 x hx) with ⟨px, hpx⟩
      rcases Option.isSome_iff_exists.mp (h1 y hy) with ⟨py, hpy⟩
      rcases Option.isSome_iff_exists.mp (h1 z hz) with ⟨pz, hpz⟩
      simp only [hpx, hpy, hpz, jsPriceSub, decide_eq_true_eq]
      omega
  · intro v
    refine filter_isort (fun p : Product => p.price) ?_ v
    intro x hx y hy hk
    simp only at hk
    rw [hk]
    cases y.price <;> simp [jsPriceSub]
  · exact isortE_ok_of_cmp (f := fun a b : Product => jsPriceSub b.price a.price)
      (fun x _ y _ => rfl)
  · refine List.Pairwise.imp_of_mem ?_
      (pairwise_isort
        (fun a b : Product => decide (jsPriceSub b.price a.price ≤ 0)) ?_ ?_)
    · intro a b ha hb hle
      rcases Option.isSome_iff_exists.mp (h1 a (mem_isort.mp ha)) with ⟨pa, hpa⟩
      rcases Option.isSome_iff_exists.mp (h1 b (mem_isort.mp hb)) with ⟨pb, hpb⟩
      simp only [hpa, hpb, jsPriceSub, decide_eq_true_eq] at hle
      simp only [hpa, hpb, Option.getD_some]
      omega
    · intro x hx y hy
      rcases Option.isSome_iff_exists.mp (h1 x hx) with ⟨px, hpx⟩
      rcases Option.isSome_iff_exists.mp (h1 y hy) with ⟨py, hpy⟩
      simp only [hpx, hpy, jsPriceSub, decide_eq_true_eq]
      omega
    · intro x hx y hy z hz
      rcases Option.isSome_iff_exists.mp (h1 x hx) with ⟨px, hpx⟩
      rcases Option.isSome_iff_exists.mp (h1 y hy) with ⟨py, hpy⟩
      rcases Option.isSome_iff_exists.mp (h1 z hz) with ⟨pz, hpz⟩
      simp only [hpx, hpy, hpz, jsPriceSub, decide_eq_true_eq]
      omega
  · intro v
    refine filter_isort (fun p : Product => p.price) ?_ v
    intro x hx y hy hk
    simp only at hk
    rw [hk]
    cases y.price <;> simp [jsPriceSub]
  · refine isortE_ok_of_cmp
      (f := fun a b : Product => strCmp (a.title.getD "") (b.title.getD "undefined")) ?_
    intro x hx y _
    rcases Option.isSome_iff_exists.mp (h2 x hx) with ⟨tx, htx⟩
    rw [cmpNameAsc, htx]
    simp [htx]
  · refine List.Pairwise.imp_of_mem ?_
      (pairwise_isort
        (fun a b : Product =>
          decide (strCmp (a.title.getD "") (b.title.getD "undefined") ≤ 0)) ?_ ?_)
    · intro a b ha hb hle
      rcases Option.isSome_iff_exists.mp (h2 a (mem_isort.mp ha)) with ⟨ta, hta⟩
      rcases Option.isSome_iff_exists.mp (h2 b (mem_isort.mp hb)) with ⟨tb, htb⟩
      simp only [hta, htb, Option.getD_some, decide_eq_true_eq, strCmp_le_zero] at hle
      simp only [hta, htb, Option.getD_some]
      exact hle
    · intro x hx y hy
      rcases Option.isSome_iff_exists.mp (h2 x hx) with ⟨tx, htx⟩
      rcases Option.isSome_iff_exists.mp (h2 y hy) with ⟨ty, hty⟩
      simp only [htx, hty, Option.getD_some, decide_eq_true_eq, strCmp_le_zero]
      exact strLtL_le_total tx.data ty.data
    · intro x hx y hy z hz
      rcases Option.isSome_iff_exists.mp (h2 x hx) with ⟨tx, htx⟩
      rcases Option.isSome_iff_exists.mp (h2 y hy) with ⟨ty, hty⟩
      rcases Option.isSome_iff_exists.mp (h2 z hz) with ⟨tz, htz⟩
      simp only [htx, hty, htz, Option.getD_some, decide_eq_true_eq, strCmp_le_zero]
      exact fun hxy hyz => strLtL_le_trans hxy hyz
  · intro v
    refine filter_isort (fun p : Product => p.title) ?_ v
    intro x hx y hy hk
    rcases Option.isSome_iff_exists.mp (h2 x hx) with ⟨tx, htx⟩
    simp only at hk
    have hty : y.title = some tx := by rw [← hk, htx]
    simp [htx, hty, strCmp, strLtL_irrefl]

/-- Witness for C4 on the three scenario products (distinct prices and
titles, all fields present). -/
theorem c4_sort_correct_witness :
    (∀ p ∈ [sampleB, sampleA, sampleC], p.price.isSome) ∧
    (∀ p ∈ [sampleB, sampleA, sampleC], p.title.isSome) ∧
    (∃ la ld ln,
      (sortProducts "price-asc" [sampleB, sampleA, sampleC] = .ok la ∧
        la.Pairwise (fun a b => a.price.getD 0 ≤ b.price.getD 0) ∧
        ∀ v : Option Int, la.filter (fun p => p.price = v) =
          [sampleB, sampleA, sampleC].filter (fun p => p.price = v)) ∧
      (sortProducts "price-desc" [sampleB, sampleA, sampleC] = .ok ld ∧
        ld.Pairwise (fun a b => b.price.getD 0 ≤ a.price.getD 0) ∧
        ∀ v : Option Int, ld.filter (fun p => p.price = v) =
          [sampleB, sampleA, sampleC].filter (fun p => p.price = v)) ∧
      (sortProducts "name-asc" [sampleB, sampleA, sampleC] = .ok ln ∧
        ln.Pairwise (fun a b =>
          strLtL (b.title.getD "").data (a.title.getD "").data = false) ∧
        ∀ v : Option String, ln.filter (fun p => p.title = v) =
          [sampleB, sampleA, sampleC].filter (fun p => p.title = v))) :=
  ⟨by decide, by decide, c4_sort_correct [sampleB, sampleA, sampleC] (by decide) (by decide)⟩

/-- Counterexample for C5: the detail hook never resets `product` to null
when a new fetch starts.  After a successful fetch (generation 0), a
`productId` change aborts generation 0 and starts generation 1; the
resulting observable state has `loading = true` with the stale `product`
still set, which matches none of the three `RequestState` combinations —
and if generation 1 then fails, `error` is set while the stale `product` is
still present. -/
theorem c5_counterexample :
    (runD [.effectStart 0, .settleOk 0 sampleA, .cleanup 0, .effectStart 1]).st =
      { product := some sampleA, loading := true, error := none } ∧
    ¬ threeCombos
      { product := some sampleA, loading := true, error := none } ∧
    (runD [.effectStart 0, .settleOk 0 sampleA, .cleanup 0, .effectStart 1,
        .settleErr 1 "HTTP error! status: 500"]).st =
      { product := some sampleA, loading := false,
        error := some "HTTP error! status: 500" } ∧
    ¬ threeCombos
      { product := some sampleA, loading := false,
        error := some "HTTP error! status: 500" } := by
  refine ⟨by decide, by decide, by decide, by decide⟩

/-- Claim C5 as amended: until the first successful fetch, exactly one of
the three `RequestState` combinations holds, and in every reachable state a
non-null `error` implies `loading = false`; but once a fetch has succeeded,
`product` is never reset — the effect for a new `productId` only runs
`setError(null); setLoading(true)` — so after an id change the stale product
coexists with `loading = true` (and, if the new fetch fails, with a
non-null `error`). -/
theorem c5_request_state_amended :
    (∀ es : List DEvent,
      (runD es).st.loading = true → (runD es).st.error = none) ∧
    (∀ es : List DEvent, hasSettleOk es = false →
      (runD es).st.product = none ∧ threeCombos (runD es).st) ∧
    (∀ (r : HookRun) (g : Nat),
      (stepD r (.effectStart g)).st.product = r.st.product) := by
  refine ⟨?_, ?_, ?_⟩
  · intro es
    exact runDFrom_loading_error es (fun _ => rfl)
  · intro es hok
    exact runDFrom_threeCombos es rfl (Or.inl ⟨rfl, rfl, rfl⟩) hok
  · intro r g
    rfl

/-- Witness for C5's amended statement: a started-then-failed first fetch. -/
theorem c5_request_state_amended_witness :
    ((runD [.effectStart 0]).st.loading = true ∧
      (runD [.effectStart 0]).st.error = none) ∧
    (hasSettleOk [.effectStart 0, .settleErr 0 "offline"] = false ∧
      (runD [.effectStart 0, .settleErr 0 "offline"]).st.product = none ∧
      threeCombos (runD [.effectStart 0, .settleErr 0 "offline"]).st) ∧
    (stepD initHookRun (.effectStart 3)).st.product = initHookRun.st.product :=
  ⟨⟨by decide, c5_request_state_amended.1 [.effectStart 0] (by decide)⟩,
    ⟨by decide, c5_request_state_amended.2.1 [.effectStart 0, .settleErr 0 "offline"] (by decide)⟩,
    c5_request_state_amended.2.2 initHookRun 3⟩

/-- Claim C6: once a generation's controller has been aborted (teardown
cleanup or a `productId` change), the later settlement of that generation's
fetch — resolution or rejection, after any further events — applies no state
transition at all: the three `signal.aborted` checkpoints discard the late
result silently. -/
theorem c6_cancel_discards (pre mid : List DEvent) (g : Nat) (d : Product)
    (m : String) :
    stepD (runD (pre ++ DEvent.cleanup g :: mid)) (.settleOk g d) =
      runD (pre ++ DEvent.cleanup g :: mid) ∧
    stepD (runD (pre ++ DEvent.cleanup g :: mid)) (.settleErr g m) =
      runD (pre ++ DEvent.cleanup g :: mid) := by
  have hg : g ∈ (runD (pre ++ DEvent.cleanup g :: mid)).aborted := by
    rw [runD, runDFrom_append, runDFrom]
    exact runDFrom_aborted_mono mid (by simp [stepD])
  constructor
  · rw [stepD, if_pos hg]
  · rw [stepD, if_pos hg]

/-- Counterexample for C7: the projection pipeline can raise.  With the
non-empty search text `"lip"` and a collection containing a product with no
title, `filterProducts` evaluates `product.title.toLowerCase()` on
`undefined` and throws a TypeError, and `getProcessedProducts` propagates
it — the malformed product is not treated as "does not match". -/
theorem c7_counterexample :
    getProcessedProducts [sampleNoTitle] "all" "lip" "name-asc" =
      .error .typeError ∧
    filterProducts "lip" [sampleNoTitle] = .error .typeError := by
  refine ⟨by decide, by decide⟩

/-- Claim C7 as amended: the `useProducts` handlers are defensive — a missing
title is treated as the empty string and a missing price as `0`, so
`handleSearch` and `handleSort` never raise on any input — and the
ProfileScreen price sorts never raise either (a missing price yields a
`NaN` comparison, treated as equal); but the ProfileScreen `filterProducts`
raises a TypeError whenever the search text is non-empty and the collection
contains a product with no title. -/
theorem c7_defensive_amended :
    (∀ (k : String) (l : List Product), ∃ r, handleSort k l = .ok r) ∧
    (∀ (q : String) (ps : List Product),
      handleSearch q ps =
        if (jsTrim q).data = [] then ps else ps.filter (handleSearchPred q)) ∧
    (∀ l : List Product, (∃ r, sortProducts "price-asc" l = .ok r) ∧
      ∃ r, sortProducts "price-desc" l = .ok r) ∧
    (∀ (q : String) (ps : List Product) (p : Product),
      (jsTrim q).data ≠ [] → p ∈ ps → p.title = none →
      filterProducts q ps = .error .typeError) := by
  refine ⟨?_, ?_, ?_, ?_⟩
  · intro k l
    unfold handleSort
    split
    · exact ⟨_, isortE_ok_of_cmp (f := fun a b : Product =>
        strCmp (a.title.getD "") (b.title.getD "")) (fun x _ y _ => rfl)⟩
    · exact ⟨_, isortE_ok_of_cmp (f := fun a b : Product =>
        a.price.getD 0 - b.price.getD 0) (fun x _ y _ => rfl)⟩
    · exact ⟨l, rfl⟩
  · intro q ps
    rw [handleSearch]
  · intro l
    constructor
    · exact ⟨_, isortE_ok_of_cmp (f := fun a b : Product =>
        jsPriceSub a.price b.price) (fun x _ y _ => rfl)⟩
    · exact ⟨_, isortE_ok_of_cmp (f := fun a b : Product =>
        jsPriceSub b.price a.price) (fun x _ y _ => rfl)⟩
  · intro q ps p hq hp ht
    rw [filterProducts, if_neg hq]
    exact filterProductsGo_error hp ht

/-- Witness for C7's amended statement, exercised on the untitled product. -/
theorem c7_defensive_amended_witness :
    (∃ r, handleSort "title" [sampleNoTitle, sampleA] = .ok r) ∧
    ((jsTrim "lip").data ≠ [] ∧ sampleNoTitle ∈ [sampleNoTitle] ∧
      sampleNoTitle.title = none ∧
      filterProducts "lip" [sampleNoTitle] = .error .typeError) :=
  ⟨(c7_defensive_amended.1 "title" [sampleNoTitle, sampleA]),
    by decide, by decide, by decide,
    c7_defensive_amended.2.2.2 "lip" [sampleNoTitle] sampleNoTitle
      (by decide) (by decide) (by decide)⟩

/-- Claim C8: for every empty, all-whitespace, or missing caller-supplied
input — an empty search query to `searchProducts`, an empty category to
`fetchProductsByCategory`, or a null/undefined/empty id to
`fetchProductById` — the function fails fast with its validation error
before, and without, any network request: the request list is empty for
every network oracle. -/
theorem c8_fail_fast :
    (∀ (q : Option String) (net : String → NetResp),
      (q = none ∨ q = some "" ∨ (jsTrim (q.getD "")).data = []) →
      searchProducts q net =
        (.error (.validation "Search query cannot be empty"), [])) ∧
    (∀ (c : Option String) (net : String → NetResp),
      (c = none ∨ c = some "" ∨ (jsTrim (c.getD "")).data = []) →
      fetchProductsByCategory c net =
        (.error (.validation "Category cannot be empty"), [])) ∧
    (∀ (id : JsVal) (net : String → NetResp),
      (id = .jsNull ∨ id = .undef ∨ id = .str "") →
      fetchProductById id net =
        (.error (.validation "Product ID is required and cannot be empty"), [])) := by
  refine ⟨?_, ?_, ?_⟩
  · intro q net h
    rcases h with rfl | rfl | h3
    · rfl
    · rfl
    · simp [searchProducts, h3]
  · intro c net h
    rcases h with rfl | rfl | h3
    · rfl
    · rfl
    · simp [fetchProductsByCategory, h3]
  · intro id net h
    rw [fetchProductById, if_pos h]

/-- Witness for C8: a whitespace-only query, a missing category, and an
empty-string id, against an always-succeeding oracle. -/
theorem c8_fail_fast_witness :
    ((some "   " = none ∨ some "   " = some "" ∨
        (jsTrim ((some "   ").getD "")).data = []) ∧
      searchProducts (some "   ") sampleNet =
        (.error (.validation "Search query cannot be empty"), [])) ∧
    (fetchProductsByCategory none sampleNet =
      (.error (.validation "Category cannot be empty"), [])) ∧
    (fetchProductById (.str "") sampleNet =
      (.error (.validation "Product ID is required and cannot be empty"), [])) :=
  ⟨⟨by decide, c8_fail_fast.1 (some "   ") sampleNet (by decide)⟩,
    c8_fail_fast.2.1 none sampleNet (by decide),
    c8_fail_fast.2.2 (.str "") sampleNet (by decide)⟩

/-- Claim C9: the result of `fetchProductById` does not depend on the abort
signal that `useProductDetail` passes as a second argument — the function's
parameter list is `(id)` only, so the argument is dropped at the call site.
Two runs with different signal values, including an already-aborted signal,
return identically and issue the same single network request for a valid
id: cancellation never aborts the underlying request. -/
theorem c9_signal_ignored (id : JsVal) (s1 s2 : Bool) (net : String → NetResp) :
    hookFetchProductById id s1 net = hookFetchProductById id s2 net ∧
    (¬(id = .jsNull ∨ id = .undef ∨ id = .str "") →
      (hookFetchProductById id s1 net).2 = [productUrl id]) := by
  refine ⟨rfl, ?_⟩
  intro hv
  rw [hookFetchProductById, fetchProductById, if_neg hv]
  dsimp only
  split
  · rfl
  · split <;> rfl

/-- Witness for C9: id 5, one aborted and one live signal, same oracle. -/
theorem c9_signal_ignored_witness :
    hookFetchProductById (.num 5) true sampleNet =
      hookFetchProductById (.num 5) false sampleNet ∧
    ¬((JsVal.num 5) = .jsNull ∨ (JsVal.num 5) = .undef ∨
      (JsVal.num 5) = .str "") ∧
    (hookFetchProductById (.num 5) true sampleNet).2 = [productUrl (.num 5)] :=
  ⟨(c9_signal_ignored (.num 5) true false sampleNet).1, by decide,
    (c9_signal_ignored (.num 5) true false sampleNet).2 (by decide)⟩

/-- Claim C10: `handleSort` with any key other than `'title'` or `'price'` —
including the spec's `'name-asc'`, `'price-asc'`, `'price-desc'` — stores a
copy of `filteredProducts` with the same elements in the same order; only
`'title'` (ascending by title, `strLtL` order on the `|| ''` fallback) and
`'price'` (ascending by `price || 0`) produce a reordering, and each yields
a permutation of the input. -/
theorem c10_handle_sort_keys (l : List Product) (k : String) :
    (k ≠ "title" → k ≠ "price" → handleSort k l = .ok l) ∧
    (∃ lt, handleSort "title" l = .ok lt ∧ lt.Perm l ∧
      lt.Pairwise (fun a b =>
        strLtL (b.title.getD "").data (a.title.getD "").data = false)) ∧
    (∃ lp, handleSort "price" l = .ok lp ∧ lp.Perm l ∧
      lp.Pairwise (fun a b => a.price.getD 0 ≤ b.price.getD 0)) := by
  refine ⟨?_, ?_, ?_⟩
  · intro h1 h2
    unfold handleSort
    split
    · exfalso
      simp_all
    · exfalso
      simp_all
    · rfl
  · refine ⟨isort (fun a b : Product =>
      decide (strCmp (a.title.getD "") (b.title.getD "") ≤ 0)) l, ?_, ?_, ?_⟩
    · exact isortE_ok_of_cmp (f := fun a b : Product =>
        strCmp (a.title.getD "") (b.title.getD "")) (fun x _ y _ => rfl)
    · exact perm_isort _ l
    · refine List.Pairwise.imp_of_mem ?_
        (pairwise_isort (fun a b : Product =>
          decide (strCmp (a.title.getD "") (b.title.getD "") ≤ 0)) ?_ ?_)
      · intro a b _ _ hle
        simp only [decide_eq_true_eq, strCmp_le_zero] at hle
        exact hle
      · intro x _ y _
        simp only [decide_eq_true_eq, strCmp_le_zero]
        exact strLtL_le_total (x.title.getD "").data (y.title.getD "").data
      · intro x _ y _ z _
        simp only [decide_eq_true_eq, strCmp_le_zero]
        exact fun hxy hyz => strLtL_le_trans hxy hyz
  · refine ⟨isort (fun a b : Product =>
      decide (a.price.getD 0 - b.price.getD 0 ≤ 0)) l, ?_, ?_, ?_⟩
    · exact isortE_ok_of_cmp (f := fun a b : Product =>
        a.price.getD 0 - b.price.getD 0) (fun x _ y _ => rfl)
    · exact perm_isort _ l
    · refine List.Pairwise.imp_of_mem ?_
        (pairwise_isort (fun a b : Product =>
          decide (a.price.getD 0 - b.price.getD 0 ≤ 0)) ?_ ?_)
      · intro a b _ _ hle
        simp only [decide_eq_true_eq] at hle
        omega
      · intro x _ y _
        simp only [decide_eq_true_eq]
        omega
      · intro x _ y _ z _
        simp only [decide_eq_true_eq]
        omega

/-- Witness for C10: the spec key `'name-asc'` leaves the list unchanged;
`'price'` reorders it. -/
theorem c10_handle_sort_keys_witness :
    (("name-asc" : String) ≠ "title" ∧ ("name-asc" : String) ≠ "price" ∧
      handleSort "name-asc" [sampleB, sampleA] = .ok [sampleB, sampleA]) ∧
    (∃ lp, handleSort "price" [sampleB, sampleA] = .ok lp ∧
      lp.Perm [sampleB, sampleA] ∧
      lp.Pairwise (fun a b => a.price.getD 0 ≤ b.price.getD 0)) :=
  ⟨⟨by decide, by decide,
      (c10_handle_sort_keys [sampleB, sampleA] "name-asc").1 (by decide) (by decide)⟩,
    (c10_handle_sort_keys [sampleB, sampleA] "name-asc").2.2⟩
